import Mathlib

/-!
Shallow embedding of the configuration-resolution core of the
`thesis-data_quality` repository (directory `src/app`), together with
theorems about its behaviour.

The embedding models:
  * the pydantic data records in `src/app/models/` (`DataAsset`, `Expectation`,
    `Suite`, `Run`, `Job`);
  * the asset/suite selectors in `src/app/utils/selector.py`
    (`select_asset`, `select_suite`);
  * the job selectors in `src/app/utils/job_selector_factory.py`
    (`_select_job_by_filename`, `_select_jobs_by_tags`, `handle_job_data`,
    `JobSelectorFactory.select_job`);
  * the run assembler `build_validations` in `src/app/main.py`;
  * the selector dispatch of the `__main__` block of `src/app/main.py`.

File system contents (`resources/data_assets/*.yml`, `resources/suites/*.yml`
and the `.yml` tree under `resources/jobs/`) are modelled as association
lists packaged in an `Env` record; Python exceptions are modelled as the
`Except SelError` monad, with one `SelError` constructor per raise site
of the code (named after the error taxonomy of the specification).
Great-Expectations state (the data-source asset catalogue, the suite
catalogue of the context) is modelled by explicit state passing.
-/

namespace DataQuality

/-- Error taxonomy.  Each constructor corresponds to a class of Python
exceptions raised by the code: `malformedName` to the `ValueError` of tuple
unpacking of `str.split(".")`, `resourceNotFound` to `FileNotFoundError`
from `open` and to the explicit empty-file `ValueError` of
`_select_job_by_filename`, `assetNotFound` to the explicit raise in
`select_asset`, `noMatch` to the explicit raise in `_select_jobs_by_tags`,
`invalidSelector` to the `ValueError` of `select_job`, `missingSelector` to
the explicit raise in `__main__`, and `typeError` to the `TypeError` Python
raises when `tag in job.tags` is evaluated with `job.tags = None` (and to
the `AttributeError` of `None.get`). -/
inductive SelError where
  | malformedName
  | resourceNotFound
  | assetNotFound
  | noMatch
  | invalidSelector
  | missingSelector
  | typeError
deriving DecidableEq, Repr

/-! ### Data model (`src/app/models/`) -/

/-- `models/data_asset.py`: `DataAsset {name, query}`. -/
structure DataAsset where
  name : String
  query : String
deriving DecidableEq, Repr

/-- `models/suite.py`: `Expectation {expectation_type, kwargs}`.  The
`kwargs` dict is modelled as an association list of string keys. -/
structure Expectation where
  expectation_type : String
  kwargs : List (String × String)
deriving DecidableEq, Repr

/-- `models/suite.py`: `Suite {name, expectations}`. -/
structure Suite where
  name : String
  expectations : List Expectation
deriving DecidableEq, Repr

/-- `models/job.py`: `Run {data_assets, suite}`. -/
structure Run where
  data_assets : List DataAsset
  suite : Suite
deriving DecidableEq, Repr

/-- `models/job.py`: `Job {name, runs, tags}` with
`tags : Optional[List[StrictStr]]` (so `none` models Python `None`, the
value `handle_job_data` passes when the YAML has no `tags` field). -/
structure Job where
  name : String
  runs : List Run
  tags : Option (List String)
deriving DecidableEq, Repr

/-! ### Raw YAML resource contents (`resources/` file schemas, spec §6) -/

/-- One entry of the `data_assets` list of a
`resources/data_assets/<group>.yml` file.  `select_asset` reads the name
with `asset.get("name")` — which yields Python `None` when absent — so the
name is an `Option`; the query is read with `asset["query"]`. -/
structure AssetEntry where
  name : Option String
  query : String
deriving DecidableEq, Repr

/-- Raw entry of the `expectations` list of a `resources/suites/<n>.yml`
file, as read by `select_suite`. -/
structure ExpectationEntry where
  expectation_type : String
  kwargs : List (String × String)
deriving DecidableEq, Repr

/-- Loaded contents of a `resources/suites/<n>.yml` file:
`{name, expectations}`. -/
structure SuiteResource where
  name : String
  expectations : List ExpectationEntry
deriving DecidableEq, Repr

/-- One `runs` entry of a job YAML:
`{data_assets: [composite_name...], suite: suite_name}`. -/
structure RunEntry where
  data_assets : List String
  suite : String
deriving DecidableEq, Repr

/-- Loaded contents of a non-empty job YAML:
`{name, tags?, runs}`. -/
structure JobData where
  name : String
  tags : Option (List String)
  runs : List RunEntry
deriving DecidableEq, Repr

/-- One `.yml` file found under `resources/jobs/`: its subfolder path and
file name (without the `.yml` extension) and its loaded contents —
`none` models a file whose `yaml.safe_load` returns Python `None`
(an empty file). -/
structure JobFile where
  sub_folder : String
  file_name : String
  content : Option JobData
deriving DecidableEq, Repr

/-- The resource tree rooted at `settings.project_path/resources`:
`data_assets` maps a group name `<g>` to the `data_assets` list of
`resources/data_assets/<g>.yml`; `suites` maps a suite selector `<n>` to
the contents of `resources/suites/<n>.yml`; `jobFiles` lists the `.yml`
files under `resources/jobs/` in `os.walk` encounter order. -/
structure Env where
  data_assets : List (String × List AssetEntry)
  suites : List (String × SuiteResource)
  jobFiles : List JobFile
deriving DecidableEq, Repr

/-- First-match association-list lookup (a file system has one file per
path, Python `open` finds it or raises `FileNotFoundError`). -/
def lookupFile {α : Type} (fs : List (String × α)) (k : String) : Option α :=
  match fs with
  | [] => none
  | (k', v) :: rest => if k' = k then some v else lookupFile rest k

/-- Contents of `resources/jobs/<sub>/<name>.yml`, looked up among the
job-tree files; `none` when no such file exists. -/
def lookupJobTree (files : List JobFile) (sub name : String) : Option (Option JobData) :=
  match files with
  | [] => none
  | f :: rest =>
      if f.sub_folder = sub ∧ f.file_name = name then some f.content
      else lookupJobTree rest sub name

/-- Contents of `resources/jobs/<sub>/<name>.yml` in environment `env`. -/
def lookupJobFile (env : Env) (sub name : String) : Option (Option JobData) :=
  lookupJobTree env.jobFiles sub name

/-- Python `str.split(sep)` for a one-character separator, over the
character list: `"".split(".") == [""]`, `"a.b".split(".") == ["a","b"]`,
`".".split(".") == ["",""]`. -/
def pySplitAux (c : Char) : List Char → List (List Char)
  | [] => [[]]
  | x :: rest =>
    match pySplitAux c rest with
    | [] => [[]]
    | g :: gs => if x = c then [] :: g :: gs else (x :: g) :: gs

/-- Python `s.split(c)` for a one-character separator `c`. -/
def pySplit (s : String) (c : Char) : List String :=
  (pySplitAux c s.data).map String.mk

/-- Python tuple unpacking `a, b = s.split(".")`: succeeds exactly when
the split has two components, otherwise raises `ValueError`. -/
def split2 (s : String) : Option (String × String) :=
  match pySplit s '.' with
  | [a, b] => some (a, b)
  | _ => none

/-! ### `src/app/utils/selector.py` -/

/-- The scan loop of `select_asset`: first entry of the `data_assets` list
whose `asset.get("name")` equals the requested leaf name. -/
def findAsset (assets : List AssetEntry) (asset_name : String) : Option AssetEntry :=
  match assets with
  | [] => none
  | a :: rest => if a.name = some asset_name then some a else findAsset rest asset_name

/-- `select_asset(fname)`: split `fname` on `"."` into
`(tbl_name, asset_name)`, load `resources/data_assets/<tbl_name>.yml`,
scan its `data_assets` list for an entry named `asset_name`, and return
`DataAsset(name=fname, query=asset["query"])`; raise if the name does not
unpack, the file is missing, or no entry matches. -/
def select_asset (env : Env) (fname : String) : Except SelError DataAsset :=
  match split2 fname with
  | none => .error .malformedName
  | some (tbl_name, asset_name) =>
    match lookupFile env.data_assets tbl_name with
    | none => .error .resourceNotFound
    | some assets =>
      match findAsset assets asset_name with
      | some a => .ok { name := fname, query := a.query }
      | none => .error .assetNotFound

/-- `select_suite(suite_name)`: load `resources/suites/<suite_name>.yml`,
map each `expectations` entry to an `Expectation`, and return a `Suite`
named by the resource's own top-level `name` field. -/
def select_suite (env : Env) (suite_name : String) : Except SelError Suite :=
  match lookupFile env.suites suite_name with
  | none => .error .resourceNotFound
  | some suite_data =>
      .ok { name := suite_data.name,
            expectations := suite_data.expectations.map
              (fun e => { expectation_type := e.expectation_type, kwargs := e.kwargs }) }

/-! ### `src/app/utils/job_selector_factory.py` -/

/-- The inner loop of `handle_job_data`: resolve each composite name of a
run's `data_assets` list via `select_asset`, in order, propagating the
first failure. -/
def resolveAssets (env : Env) : List String → Except SelError (List DataAsset)
  | [] => .ok []
  | n :: rest => do
    let a ← select_asset env n
    let rest' ← resolveAssets env rest
    pure (a :: rest')

/-- The outer loop of `handle_job_data`: build a `Run` per `runs` entry,
resolving its assets and then its suite. -/
def resolveRuns (env : Env) : List RunEntry → Except SelError (List Run)
  | [] => .ok []
  | r :: rest => do
    let data_assets ← resolveAssets env r.data_assets
    let suite ← select_suite env r.suite
    let rest' ← resolveRuns env rest
    pure (({ data_assets := data_assets, suite := suite } : Run) :: rest')

/-- `handle_job_data(job_data)`: assemble a `Job` from a loaded job record,
with `tags = job_data.get("tags")` (so `none` when the YAML has no tags). -/
def handle_job_data (env : Env) (job_data : JobData) : Except SelError Job := do
  let runs ← resolveRuns env job_data.runs
  pure { name := job_data.name, runs := runs, tags := job_data.tags }

/-- `JobSelectorFactory._select_job_by_filename(fname)`: split `fname` into
`(sub_folder, job_name)`, open `resources/jobs/<sub_folder>/<job_name>.yml`
(missing file raises), raise if the loaded data is falsy (empty file),
otherwise delegate to `handle_job_data`. -/
def select_job_by_filename (env : Env) (fname : String) : Except SelError Job :=
  match split2 fname with
  | none => .error .malformedName
  | some (sub_folder, job_name) =>
    match lookupJobFile env sub_folder job_name with
    | none => .error .resourceNotFound
    | some none => .error .resourceNotFound
    | some (some job_data) => handle_job_data env job_data

/-- Python `all(tag in job.tags for tag in tags)`: the generator is lazy,
so with `tags = []` nothing is evaluated and the result is `True`; with a
non-empty `tags` and `job.tags = None` the first membership test raises
`TypeError`. -/
def tagsMatch (jobTags : Option (List String)) (tags : List String) : Except SelError Bool :=
  match tags with
  | [] => .ok true
  | _ :: _ =>
    match jobTags with
    | none => .error .typeError
    | some ts => .ok (tags.all (fun t => ts.contains t))

/-- The `os.walk` loop of `_select_jobs_by_tags` over the `.yml` files of
the job tree: each file is loaded and assembled (an empty file makes
`handle_job_data(None)` raise), and the job is kept when its tags pass
`tagsMatch`. -/
def collectJobs (env : Env) (tags : List String) : List JobFile → Except SelError (List Job)
  | [] => .ok []
  | f :: rest =>
    match f.content with
    | none => .error .typeError
    | some job_data => do
      let job ← handle_job_data env job_data
      let keep ← tagsMatch job.tags tags
      let jobs ← collectJobs env tags rest
      pure (if keep then job :: jobs else jobs)

/-- `JobSelectorFactory._select_jobs_by_tags(tags)`: collect the matching
jobs over the whole tree and raise if none matched. -/
def select_jobs_by_tags (env : Env) (tags : List String) : Except SelError (List Job) := do
  let jobs ← collectJobs env tags env.jobFiles
  if jobs.length = 0 then .error .noMatch
  else pure jobs

/-- The argument of `JobSelectorFactory.select_job`: a `str` filename or a
`list` of tags (`Union[str, list]`). -/
inductive Selector where
  | fname : String → Selector
  | tags : List String → Selector
deriving DecidableEq, Repr

/-- What `select_job` actually returns: `_select_job_by_filename` yields a
single `Job` while `_select_jobs_by_tags` yields a list (the `List[Job]`
annotation of the Python code notwithstanding); `build_validations`
normalizes the two shapes. -/
inductive JobsArg where
  | single : Job → JobsArg
  | many : List Job → JobsArg
deriving DecidableEq, Repr

/-- `JobSelectorFactory.select_job(fname_or_tags)`: dispatch on the
argument shape. -/
def select_job (env : Env) : Selector → Except SelError JobsArg
  | .fname s => (select_job_by_filename env s).map .single
  | .tags ts => (select_jobs_by_tags env ts).map .many

/-! ### `src/app/main.py` -/

/-- A query asset registered on the Great-Expectations data source (what
`get_asset`/`add_query_asset` return). -/
structure QueryAsset where
  name : String
  query : String
deriving DecidableEq, Repr

/-- `data_asset.build_batch_request()`: opaque handle derived from the
asset. -/
structure BatchRequest where
  data_asset : QueryAsset
deriving DecidableEq, Repr

/-- The data source's asset catalogue, in registration order. -/
structure DataSource where
  assets : List QueryAsset
deriving DecidableEq, Repr

/-- `data_source.get_asset(name)` — `none` models the `LookupError` the
library raises when no asset of that name exists (caught by the bare
`except` of `build_validations`). -/
def DataSource.get_asset (ds : DataSource) (name : String) : Option QueryAsset :=
  ds.assets.find? (fun a => a.name == name)

/-- `data_source.add_query_asset(name=..., query=...)`: register a fresh
query asset and return it. -/
def DataSource.add_query_asset (ds : DataSource) (name query : String) :
    DataSource × QueryAsset :=
  let a : QueryAsset := { name := name, query := query }
  ({ assets := ds.assets ++ [a] }, a)

/-- The context's expectation-suite catalogue (suite name to registered
expectations). -/
structure GxContext where
  suites : List (String × List Expectation)
deriving DecidableEq, Repr

/-- Create-or-update of a suite entry in the catalogue. -/
def upsertSuite : List (String × List Expectation) → String → List Expectation →
    List (String × List Expectation)
  | [], n, es => [(n, es)]
  | (n', es') :: rest, n, es =>
      if n' = n then (n, es) :: rest else (n', es') :: upsertSuite rest n es

/-- `build_suite(context, suite_config)`: `add_or_update` the suite under
`suite_config.name`, add its expectations, update, and return the suite
name.  Net effect on the catalogue: upsert `name ↦ expectations`. -/
def build_suite (ctx : GxContext) (suite_config : Suite) : GxContext × String :=
  ({ suites := upsertSuite ctx.suites suite_config.name suite_config.expectations },
   suite_config.name)

/-- One element of the `validations` list built by `build_validations`:
`{"batch_request": ..., "expectation_suite_name": ...}`. -/
structure ValidationDescriptor where
  batch_request : BatchRequest
  expectation_suite_name : String
deriving DecidableEq, Repr

/-- Innermost loop of `build_validations` (`for data_asset_config in
run.data_assets`): look the asset up on the data source, create it from
the config's query when the lookup raises, build the batch request and the
suite, and append one descriptor. -/
def processAssets (suite : Suite) :
    GxContext → DataSource → List DataAsset →
    GxContext × DataSource × List ValidationDescriptor
  | ctx, ds, [] => (ctx, ds, [])
  | ctx, ds, a :: rest =>
    let step :=
      match ds.get_asset a.name with
      | some existing => (ds, existing)
      | none => ds.add_query_asset a.name a.query
    let batch_request : BatchRequest := { data_asset := step.2 }
    let bs := build_suite ctx suite
    let r := processAssets suite bs.1 step.1 rest
    (r.1, r.2.1,
     { batch_request := batch_request, expectation_suite_name := bs.2 } :: r.2.2)

/-- Middle loop of `build_validations` (`for run in job.runs`). -/
def processRuns :
    GxContext → DataSource → List Run →
    GxContext × DataSource × List ValidationDescriptor
  | ctx, ds, [] => (ctx, ds, [])
  | ctx, ds, r :: rest =>
    let s1 := processAssets r.suite ctx ds r.data_assets
    let s2 := processRuns s1.1 s1.2.1 rest
    (s2.1, s2.2.1, s1.2.2 ++ s2.2.2)

/-- Outer loop of `build_validations` (`for job in jobs`). -/
def processJobs :
    GxContext → DataSource → List Job →
    GxContext × DataSource × List ValidationDescriptor
  | ctx, ds, [] => (ctx, ds, [])
  | ctx, ds, j :: rest =>
    let s1 := processRuns ctx ds j.runs
    let s2 := processJobs s1.1 s1.2.1 rest
    (s2.1, s2.2.1, s1.2.2 ++ s2.2.2)

/-- `build_validations(context, data_source, jobs)`: normalize a single
`Job` to a one-element list (`if isinstance(jobs, Job): jobs = [jobs]`),
then run the three nested loops. -/
def build_validations (ctx : GxContext) (ds : DataSource) (jobs : JobsArg) :
    GxContext × DataSource × List ValidationDescriptor :=
  processJobs ctx ds
    (match jobs with
     | .single j => [j]
     | .many js => js)

/-- The CLI arguments relevant to selector dispatch (`--start_date` and
`--end_date` are accepted by `parse_arguments` but never read). -/
structure Args where
  job_name : Option String
  job_tags : Option String
  webhook : Option String
deriving DecidableEq, Repr

/-- Python truthiness of an optional string (argparse yields `None` for an
absent flag, and the empty string is falsy): `getTruthy x = some s` iff
`if x:` takes the then-branch with `x = s`. -/
def getTruthy : Option String → Option String
  | none => none
  | some s => if s = "" then none else some s

/-- The selector-dispatch part of the `__main__` block:
`if args.job_name:` select by name and build validations, naming the
checkpoint after `args.job_name`; `elif args.job_tags:` split the tags on
`"-"`, select by tags and build validations, naming the checkpoint after
`args.job_tags`; `else:` raise.  Returns the final context, data source,
validations list and checkpoint name. -/
def main_run (env : Env) (ctx : GxContext) (ds : DataSource) (args : Args) :
    Except SelError (GxContext × DataSource × List ValidationDescriptor × String) :=
  match getTruthy args.job_name with
  | some job_name => do
      let jobs ← select_job env (.fname job_name)
      let r := build_validations ctx ds jobs
      pure (r.1, r.2.1, r.2.2, job_name)
  | none =>
    match getTruthy args.job_tags with
    | some job_tags => do
        let tags_list := pySplit job_tags '-'
        let jobs ← select_job env (.tags tags_list)
        let r := build_validations ctx ds jobs
        pure (r.1, r.2.1, r.2.2, job_tags)
    | none => .error .missingSelector

/-! ### Helper lemmas -/

theorem string_eq_of_data_eq (a b : String) (h : a.data = b.data) : a = b := by
  cases a; cases b; simp_all

theorem pySplitAux_ne_nil (c : Char) (s : List Char) : pySplitAux c s ≠ [] := by
  induction s with
  | nil => simp [pySplitAux]
  | cons x rest ih =>
    simp only [pySplitAux]
    split
    · simp
    · split <;> simp

theorem pySplitAux_single (c : Char) (s : List Char) :
    ∀ a : List Char, pySplitAux c s = [a] → s = a := by
  induction s with
  | nil =>
    intro a h
    simp [pySplitAux] at h
    simp [h]
  | cons x rest ih =>
    intro a h
    simp only [pySplitAux] at h
    cases hr : pySplitAux c rest with
    | nil => exact absurd hr (pySplitAux_ne_nil c rest)
    | cons g gs =>
      rw [hr] at h
      by_cases hx : x = c
      · simp [hx] at h
      · simp [hx] at h
        obtain ⟨ha, hgs⟩ := h
        have : rest = g := ih g (by rw [hr, hgs])
        rw [this, ha]

theorem pySplitAux_pair (c : Char) (s : List Char) :
    ∀ a b : List Char, pySplitAux c s = [a, b] → s = a ++ c :: b := by
  induction s with
  | nil => intro a b h; simp [pySplitAux] at h
  | cons x rest ih =>
    intro a b h
    simp only [pySplitAux] at h
    cases hr : pySplitAux c rest with
    | nil => exact absurd hr (pySplitAux_ne_nil c rest)
    | cons g gs =>
      rw [hr] at h
      by_cases hx : x = c
      · simp [hx] at h
        obtain ⟨ha, hg, hgs⟩ := h
        have : rest = b := pySplitAux_single c rest b (by rw [hr, hg, hgs])
        simp [← ha, hx, this]
      · simp [hx] at h
        obtain ⟨ha, hgs⟩ := h
        have : rest = g ++ c :: b := ih g b (by rw [hr, hgs])
        rw [← ha, this]
        simp

/-- A name that `split2` unpacks into `(g, l)` is literally the composite
string `<g>.<l>`. -/
theorem split2_eq_some (s g l : String) (h : split2 s = some (g, l)) :
    s = g ++ "." ++ l := by
  unfold split2 at h
  cases hp : pySplit s '.' with
  | nil => rw [hp] at h; simp at h
  | cons a rest =>
    cases rest with
    | nil => rw [hp] at h; simp at h
    | cons b rest2 =>
      cases rest2 with
      | cons c r => rw [hp] at h; simp at h
      | nil =>
        rw [hp] at h
        simp only [Option.some.injEq, Prod.mk.injEq] at h
        obtain ⟨hg, hl⟩ := h
        unfold pySplit at hp
        cases hq : pySplitAux '.' s.data with
        | nil => exact absurd hq (pySplitAux_ne_nil '.' s.data)
        | cons a' rest' =>
          rw [hq] at hp
          cases rest' with
          | nil => simp at hp
          | cons b' rest2' =>
            cases rest2' with
            | cons c' r' => simp at hp
            | nil =>
              simp only [List.map_cons, List.map_nil, List.cons.injEq, and_true] at hp
              obtain ⟨ha, hb⟩ := hp
              have hd : s.data = a' ++ '.' :: b' := pySplitAux_pair '.' s.data a' b' hq
              subst hg
              subst hl
              apply string_eq_of_data_eq
              rw [hd, String.data_append, String.data_append, ← ha, ← hb]
              show a' ++ '.' :: b' = a' ++ ['.'] ++ b'
              simp

theorem ok_bind {α β : Type} (a : α) (f : α → Except SelError β) :
    (Except.ok a >>= f) = f a := rfl

theorem error_bind {α β : Type} (e : SelError) (f : α → Except SelError β) :
    ((Except.error e : Except SelError α) >>= f) = Except.error e := rfl

theorem pure_eq_ok {α : Type} (a : α) : (pure a : Except SelError α) = Except.ok a := rfl

/-- When the assembled job has an actual tag list, the Python filter
`all(tag in job.tags for tag in tags)` evaluates to the conjunction over
the requested tags, whatever they are. -/
theorem tagsMatch_some (ts tags : List String) :
    tagsMatch (some ts) tags = .ok (tags.all (fun t => ts.contains t)) := by
  cases tags <;> rfl

/-- With an empty requested-tag list the walk of `_select_jobs_by_tags`
keeps one assembled job per `.yml` file. -/
theorem collectJobs_nil_ok (env : Env) (files : List JobFile) :
    ∀ jobs : List Job, collectJobs env [] files = .ok jobs →
    jobs.length = files.length := by
  induction files with
  | nil =>
    intro jobs h
    simp only [collectJobs] at h
    cases h
    rfl
  | cons f rest ih =>
    intro jobs h
    simp only [collectJobs] at h
    cases hc : f.content with
    | none => simp only [hc] at h; cases h
    | some jd =>
      simp only [hc] at h
      cases hh : handle_job_data env jd with
      | error e => rw [hh, error_bind] at h; cases h
      | ok job =>
        rw [hh, ok_bind] at h
        simp only [tagsMatch, ok_bind] at h
        cases hr : collectJobs env [] rest with
        | error e => rw [hr, error_bind] at h; cases h
        | ok jobs' =>
          rw [hr, ok_bind] at h
          simp only [pure_eq_ok, if_pos] at h
          cases h
          simp [ih jobs' hr]

/-- The walk with requested tags `tags` returns exactly the
tag-superset-filtered sublist of the walk with no requested tags, provided
every assembled job carries a tag list. -/
theorem collectJobs_filter (env : Env) (tags : List String) (files : List JobFile) :
    ∀ allJobs : List Job,
    collectJobs env [] files = .ok allJobs →
    (∀ j ∈ allJobs, j.tags ≠ none) →
    collectJobs env tags files =
      .ok (allJobs.filter (fun j => tags.all (fun t => (j.tags.getD []).contains t))) := by
  induction files with
  | nil =>
    intro allJobs h htag
    simp only [collectJobs] at h ⊢
    cases h
    rfl
  | cons f rest ih =>
    intro allJobs h htag
    simp only [collectJobs] at h ⊢
    cases hc : f.content with
    | none => simp only [hc] at h; cases h
    | some jd =>
      simp only [hc] at h ⊢
      cases hh : handle_job_data env jd with
      | error e => rw [hh, error_bind] at h; cases h
      | ok job =>
        rw [hh, ok_bind] at h
        rw [ok_bind]
        simp only [tagsMatch, ok_bind] at h
        cases hr : collectJobs env [] rest with
        | error e => rw [hr, error_bind] at h; cases h
        | ok jobs' =>
          rw [hr, ok_bind] at h
          simp only [pure_eq_ok, if_pos] at h
          cases h
          obtain ⟨ts, hts⟩ : ∃ ts, job.tags = some ts := by
            cases hjt : job.tags with
            | none => exact absurd hjt (htag job (by simp))
            | some ts => exact ⟨ts, rfl⟩
          rw [hts, tagsMatch_some, ok_bind]
          rw [ih jobs' hr (fun j hj => htag j (by simp [hj])), ok_bind]
          simp only [pure_eq_ok, List.filter_cons, hts, Option.getD_some]

/-- C2 engine: when every `.yml` file assembles and every assembled job
has a tag list, the walk with any non-empty `tags` fails exactly like the
source loop does on the filtered list. -/
theorem collectJobs_untagged_typeError (env : Env) (tags : List String)
    (hne : tags ≠ []) :
    ∀ files : List JobFile,
    (∀ f ∈ files, ∃ jd j, f.content = some jd ∧ handle_job_data env jd = .ok j) →
    (∃ f ∈ files, ∃ jd j, f.content = some jd ∧
       handle_job_data env jd = .ok j ∧ j.tags = none) →
    collectJobs env tags files = .error .typeError := by
  intro files
  induction files with
  | nil => intro _ hbad; simp at hbad
  | cons f rest ih =>
    intro hok hbad
    simp only [collectJobs]
    obtain ⟨jd0, j0, hc0, hh0⟩ := hok f (by simp)
    simp only [hc0]
    rw [hh0, ok_bind]
    cases hjt : j0.tags with
    | none =>
      cases tags with
      | nil => exact absurd rfl hne
      | cons t ts =>
        rw [show tagsMatch none (t :: ts) = .error .typeError from rfl, error_bind]
    | some ts0 =>
      rw [tagsMatch_some, ok_bind]
      obtain ⟨f', hf'mem, jd, j, hc, hh, ht⟩ := hbad
      rcases List.mem_cons.mp hf'mem with heq | hmem
      · subst heq
        rw [hc0] at hc
        injection hc with hjd
        subst hjd
        rw [hh0] at hh
        injection hh with hj
        subst hj
        rw [hjt] at ht
        cases ht
      · rw [ih (fun g hg => hok g (by simp [hg])) ⟨f', hmem, jd, j, hc, hh, ht⟩,
            error_bind]

/-! ### Claim theorems -/

/-- A list containing an entry with the requested name makes the scan of
`select_asset` match, and the matched entry carries that name. -/
theorem findAsset_mem_name (assets : List AssetEntry) (l : String) :
    (∃ e ∈ assets, e.name = some l) →
    ∃ e, findAsset assets l = some e ∧ e.name = some l := by
  induction assets with
  | nil => intro h; simp at h
  | cons a rest ih =>
    intro h
    obtain ⟨e, hmem, hname⟩ := h
    by_cases ha : a.name = some l
    · exact ⟨a, by simp [findAsset, ha], ha⟩
    · rcases List.mem_cons.mp hmem with heq | hmem2
      · subst heq; exact absurd hname ha
      · obtain ⟨e2, hf, hn⟩ := ih ⟨e, hmem2, hname⟩
        exact ⟨e2, by simp [findAsset, ha, hf], hn⟩

/-- C1: for every valid composite name `<g>.<l>` whose resource file
`resources/data_assets/<g>.yml` exists and whose `data_assets` list
contains an entry named `<l>`, `select_asset` returns a `DataAsset` whose
`name` is the original composite string (not the leaf alone) and whose
`query` is the matched entry's query. -/
theorem select_asset_roundtrip (env : Env) (fname g l : String)
    (assets : List AssetEntry)
    (hsplit : split2 fname = some (g, l))
    (hfile : lookupFile env.data_assets g = some assets)
    (hmem : ∃ e ∈ assets, e.name = some l) :
    fname = g ++ "." ++ l ∧
    ∃ entry, findAsset assets l = some entry ∧ entry.name = some l ∧
      select_asset env fname = .ok { name := fname, query := entry.query } := by
  refine ⟨split2_eq_some fname g l hsplit, ?_⟩
  obtain ⟨entry, hfind, hname⟩ := findAsset_mem_name assets l hmem
  refine ⟨entry, hfind, hname, ?_⟩
  unfold select_asset
  simp only [hsplit, hfile, hfind]

/-- C4: for every suite selector whose resource file exists,
`select_suite` returns a `Suite` named by the resource's own top-level
`name` field (not the selector) whose expectations are the resource's
`expectations` entries mapped to `Expectation`, in resource order. -/
theorem select_suite_spec (env : Env) (suite_name : String) (sd : SuiteResource)
    (hfile : lookupFile env.suites suite_name = some sd) :
    select_suite env suite_name =
      .ok { name := sd.name,
            expectations := sd.expectations.map
              (fun e => { expectation_type := e.expectation_type, kwargs := e.kwargs }) } := by
  unfold select_suite
  simp only [hfile]

/-- C5: an input name that does not split into exactly two dot-separated
components makes both `select_asset` and `_select_job_by_filename` fail
with the malformed-name error rather than return a value. -/
theorem malformed_name_errors (env : Env) (fname : String)
    (h : (pySplit fname '.').length ≠ 2) :
    select_asset env fname = .error .malformedName ∧
    select_job_by_filename env fname = .error .malformedName := by
  have hs : split2 fname = none := by
    unfold split2
    cases hp : pySplit fname '.' with
    | nil => rfl
    | cons a rest =>
      cases rest with
      | nil => rfl
      | cons b rest2 =>
        cases rest2 with
        | nil => rw [hp] at h; simp at h
        | cons c r => rfl
  constructor
  · unfold select_asset; simp only [hs]
  · unfold select_job_by_filename; simp only [hs]

/-- C8: for a qualified name splitting into `(sub_folder, job_name)`,
`_select_job_by_filename` fails with the resource-not-found error both
when `resources/jobs/<sub_folder>/<job_name>.yml` is absent and when it
loads to no data, and otherwise returns exactly what the shared assembly
routine `handle_job_data` builds. -/
theorem select_job_by_filename_spec (env : Env) (fname sub_folder job_name : String)
    (hsplit : split2 fname = some (sub_folder, job_name)) :
    (lookupJobFile env sub_folder job_name = none →
       select_job_by_filename env fname = .error .resourceNotFound) ∧
    (lookupJobFile env sub_folder job_name = some none →
       select_job_by_filename env fname = .error .resourceNotFound) ∧
    (∀ job_data, lookupJobFile env sub_folder job_name = some (some job_data) →
       select_job_by_filename env fname = handle_job_data env job_data) := by
  refine ⟨fun hmiss => ?_, fun hempty => ?_, fun job_data hdata => ?_⟩
  · unfold select_job_by_filename; simp only [hsplit, hmiss]
  · unfold select_job_by_filename; simp only [hsplit, hempty]
  · unfold select_job_by_filename; simp only [hsplit, hdata]

/-- C2: with a non-empty requested tag list, `_select_jobs_by_tags`
returns exactly the jobs assembled from the `.yml` files of the tree
whose tag set contains every requested tag (conjunction), and fails with
the no-match error when no assembled job matches.  `allJobs` is the full
walk-order sequence of assembled jobs (the walk filtered by no tags), and
every assembled job is assumed to carry a tag list. -/
theorem select_jobs_by_tags_spec (env : Env) (tags : List String) (allJobs : List Job)
    (hne : tags ≠ [])
    (hall : collectJobs env [] env.jobFiles = .ok allJobs)
    (htag : ∀ j ∈ allJobs, j.tags ≠ none) :
    select_jobs_by_tags env tags =
      (if (allJobs.filter (fun j => tags.all (fun t => (j.tags.getD []).contains t))).length = 0
       then .error .noMatch
       else .ok (allJobs.filter (fun j => tags.all (fun t => (j.tags.getD []).contains t)))) := by
  unfold select_jobs_by_tags
  rw [collectJobs_filter env tags env.jobFiles allJobs hall htag, ok_bind]
  split <;> rfl

/-- C6: with an empty requested tag list the conjunction is vacuously
true, so no assembled job is filtered out — the walk returns every job
(one per `.yml` file) and the call succeeds whenever at least one job
file exists. -/
theorem select_jobs_by_tags_empty (env : Env) (allJobs : List Job)
    (hall : collectJobs env [] env.jobFiles = .ok allJobs)
    (hne : env.jobFiles ≠ []) :
    select_jobs_by_tags env [] = .ok allJobs ∧
    allJobs.length = env.jobFiles.length := by
  have hlen := collectJobs_nil_ok env env.jobFiles allJobs hall
  refine ⟨?_, hlen⟩
  unfold select_jobs_by_tags
  rw [hall, ok_bind]
  have hnz : allJobs.length ≠ 0 := by
    rw [hlen]
    exact fun h0 => hne (List.length_eq_zero.mp h0)
  simp [hnz]
  rfl

/-- C9: if some `.yml` job file in the tree assembles to a job whose
`tags` is the absent value (`None`), then `_select_jobs_by_tags` with a
non-empty tag list fails — the unguarded membership test
`tag in job.tags` raises — instead of skipping the untagged job, even
though every file loads and assembles. -/
theorem untagged_job_fails_tag_selection (env : Env) (tags : List String)
    (hne : tags ≠ [])
    (hok : ∀ f ∈ env.jobFiles, ∃ jd j, f.content = some jd ∧
             handle_job_data env jd = .ok j)
    (hbad : ∃ f ∈ env.jobFiles, ∃ jd j, f.content = some jd ∧
              handle_job_data env jd = .ok j ∧ j.tags = none) :
    select_jobs_by_tags env tags = .error .typeError := by
  unfold select_jobs_by_tags
  rw [collectJobs_untagged_typeError env tags hne env.jobFiles hok hbad, error_bind]

/-- Which asset a descriptor's batch request names, and which suite it
carries: the observable pairing of `build_validations` output. -/
def descriptorKey (d : ValidationDescriptor) : String × String :=
  (d.batch_request.data_asset.name, d.expectation_suite_name)

/-- An asset found on the data source by `get_asset` is registered under
the requested name. -/
theorem get_asset_name (ds : DataSource) (n : String) (q : QueryAsset)
    (h : ds.get_asset n = some q) : q.name = n := by
  unfold DataSource.get_asset at h
  have := List.find?_some h
  simpa using this

/-- The innermost loop appends one descriptor per data asset, pairing a
batch request naming that asset with the run suite's own name, whatever
the incoming context and data-source state. -/
theorem processAssets_proj (suite : Suite) (assets : List DataAsset) :
    ∀ (ctx : GxContext) (ds : DataSource),
    (processAssets suite ctx ds assets).2.2.map descriptorKey
      = assets.map (fun a => (a.name, suite.name)) := by
  induction assets with
  | nil => intro ctx ds; rfl
  | cons a rest ih =>
    intro ctx ds
    simp only [processAssets]
    cases hg : ds.get_asset a.name with
    | some q =>
      simp only [hg, List.map_cons, ih, descriptorKey, build_suite]
      rw [get_asset_name ds a.name q hg]
    | none =>
      simp only [hg, List.map_cons, ih, descriptorKey, DataSource.add_query_asset,
        build_suite]

/-- The middle loop concatenates the per-run descriptor blocks in run
order. -/
theorem processRuns_proj (runs : List Run) :
    ∀ (ctx : GxContext) (ds : DataSource),
    (processRuns ctx ds runs).2.2.map descriptorKey
      = runs.flatMap (fun r => r.data_assets.map (fun a => (a.name, r.suite.name))) := by
  induction runs with
  | nil => intro ctx ds; rfl
  | cons r rest ih =>
    intro ctx ds
    simp only [processRuns, List.map_append, List.flatMap_cons, processAssets_proj, ih]

/-- The outer loop concatenates the per-job descriptor blocks in job
order. -/
theorem processJobs_proj (jobs : List Job) :
    ∀ (ctx : GxContext) (ds : DataSource),
    (processJobs ctx ds jobs).2.2.map descriptorKey
      = jobs.flatMap (fun j => j.runs.flatMap (fun r =>
          r.data_assets.map (fun a => (a.name, r.suite.name)))) := by
  induction jobs with
  | nil => intro ctx ds; rfl
  | cons j rest ih =>
    intro ctx ds
    simp only [processJobs, List.map_append, List.flatMap_cons, processRuns_proj, ih]

/-- The length of the flattened Job → Run → DataAsset projection is the
total data-asset count across all runs of all jobs. -/
theorem flatten_length_eq_sum (jobs : List Job) :
    (jobs.flatMap (fun j => j.runs.flatMap (fun r =>
        r.data_assets.map (fun a => (a.name, r.suite.name))))).length
      = (jobs.map (fun j => (j.runs.map (fun r => r.data_assets.length)).sum)).sum := by
  induction jobs with
  | nil => rfl
  | cons j rest ih =>
    simp only [List.flatMap_cons, List.map_cons, List.length_append, ih, List.sum_cons]
    congr 1
    induction j.runs with
    | nil => rfl
    | cons r rrest ihr =>
      simp only [List.flatMap_cons, List.length_append, List.map_cons, List.sum_cons, ihr,
        List.length_map]

/-- C3: `build_validations` normalizes a single `Job` to a one-element
sequence; it emits exactly one descriptor per data asset in
Job → Run → DataAsset nesting order, pairing a batch request naming that
asset with the run suite's name; the descriptor count is the total number
of data assets across all runs of all jobs; and an asset handle missing on
the data source is created from the asset's query instead of failing. -/
theorem build_validations_spec (ctx : GxContext) (ds : DataSource) (jobs : List Job) :
    (∀ j : Job, build_validations ctx ds (.single j) = build_validations ctx ds (.many [j])) ∧
    (build_validations ctx ds (.many jobs)).2.2.map descriptorKey
      = jobs.flatMap (fun j => j.runs.flatMap (fun r =>
          r.data_assets.map (fun a => (a.name, r.suite.name)))) ∧
    (build_validations ctx ds (.many jobs)).2.2.length
      = (jobs.map (fun j => (j.runs.map (fun r => r.data_assets.length)).sum)).sum ∧
    (∀ (suite : Suite) (a : DataAsset), ds.get_asset a.name = none →
       processAssets suite ctx ds [a]
         = ({ suites := upsertSuite ctx.suites suite.name suite.expectations },
            { assets := ds.assets ++ [{ name := a.name, query := a.query }] },
            [{ batch_request := { data_asset := { name := a.name, query := a.query } },
               expectation_suite_name := suite.name }])) := by
  refine ⟨fun j => rfl, processJobs_proj jobs ctx ds, ?_, ?_⟩
  · have hproj := processJobs_proj jobs ctx ds
    have hlen := congrArg List.length hproj
    rw [List.length_map] at hlen
    show (processJobs ctx ds jobs).2.2.length = _
    rw [hlen, flatten_length_eq_sum]
  · intro suite a hmiss
    simp only [processAssets, hmiss, DataSource.add_query_asset, build_suite]

/-- `select_asset` can only fail with the malformed-name,
resource-not-found or asset-not-found errors. -/
theorem select_asset_ne_missing (env : Env) (n : String) :
    select_asset env n ≠ .error .missingSelector := by
  unfold select_asset
  split
  · simp
  · split
    · simp
    · split <;> simp

/-- `select_suite` can only fail with the resource-not-found error. -/
theorem select_suite_ne_missing (env : Env) (n : String) :
    select_suite env n ≠ .error .missingSelector := by
  unfold select_suite
  split <;> simp

theorem resolveAssets_ne_missing (env : Env) (ns : List String) :
    resolveAssets env ns ≠ .error .missingSelector := by
  induction ns with
  | nil => simp [resolveAssets]
  | cons n rest ih =>
    simp only [resolveAssets]
    cases ha : select_asset env n with
    | error e =>
      rw [error_bind]
      intro h
      injection h with h'
      exact select_asset_ne_missing env n (by rw [ha, h'])
    | ok a =>
      rw [ok_bind]
      cases hr : resolveAssets env rest with
      | error e =>
        rw [error_bind]
        intro h
        injection h with h'
        exact ih (by rw [hr, h'])
      | ok rest' =>
        rw [ok_bind]
        simp [pure_eq_ok]

theorem resolveRuns_ne_missing (env : Env) (rs : List RunEntry) :
    resolveRuns env rs ≠ .error .missingSelector := by
  induction rs with
  | nil => simp [resolveRuns]
  | cons r rest ih =>
    simp only [resolveRuns]
    cases ha : resolveAssets env r.data_assets with
    | error e =>
      rw [error_bind]
      intro h
      injection h with h'
      exact resolveAssets_ne_missing env r.data_assets (by rw [ha, h'])
    | ok das =>
      rw [ok_bind]
      cases hs : select_suite env r.suite with
      | error e =>
        rw [error_bind]
        intro h
        injection h with h'
        exact select_suite_ne_missing env r.suite (by rw [hs, h'])
      | ok s =>
        rw [ok_bind]
        cases hr : resolveRuns env rest with
        | error e =>
          rw [error_bind]
          intro h
          injection h with h'
          exact ih (by rw [hr, h'])
        | ok rest' =>
          rw [ok_bind]
          simp [pure_eq_ok]

theorem handle_job_data_ne_missing (env : Env) (jd : JobData) :
    handle_job_data env jd ≠ .error .missingSelector := by
  unfold handle_job_data
  cases hr : resolveRuns env jd.runs with
  | error e =>
    rw [error_bind]
    intro h
    injection h with h'
    exact resolveRuns_ne_missing env jd.runs (by rw [hr, h'])
  | ok runs =>
    rw [ok_bind]
    simp [pure_eq_ok]

/-- Name-based selection never produces the missing-selector error: its
failures are malformed-name, resource-not-found or lookup failures. -/
theorem select_job_by_filename_ne_missing (env : Env) (fname : String) :
    select_job_by_filename env fname ≠ .error .missingSelector := by
  unfold select_job_by_filename
  split
  · simp
  · split
    · simp
    · simp
    · apply handle_job_data_ne_missing

/-- C7: when neither CLI selector is truthy, the entry point fails with
the missing-selector error — uniformly in the resource tree and the
runtime state, so before any resolution or validation has an effect on
the outcome. -/
theorem missing_selector_fails_first (env : Env) (ctx : GxContext) (ds : DataSource)
    (args : Args)
    (h1 : getTruthy args.job_name = none) (h2 : getTruthy args.job_tags = none) :
    main_run env ctx ds args = .error .missingSelector := by
  unfold main_run
  simp only [h1, h2]

/-- C10: with both `--job_name` and `--job_tags` supplied, the entry
point behaves exactly as with `--job_name` alone — name-based selection
takes precedence, `job_tags` is silently ignored — and in particular it
does not fail with the missing-selector error. -/
theorem both_selectors_name_precedence (env : Env) (ctx : GxContext) (ds : DataSource)
    (jn jt : String) (w : Option String) (hjn : jn ≠ "") :
    main_run env ctx ds { job_name := some jn, job_tags := some jt, webhook := w }
      = main_run env ctx ds { job_name := some jn, job_tags := none, webhook := w } ∧
    main_run env ctx ds { job_name := some jn, job_tags := some jt, webhook := w }
      ≠ .error .missingSelector := by
  have hg : getTruthy (some jn) = some jn := by simp [getTruthy, hjn]
  constructor
  · unfold main_run
    simp only [hg]
  · unfold main_run
    simp only [hg]
    cases hs : select_job_by_filename env jn with
    | error e =>
      have hsel : select_job env (.fname jn) = .error e := by
        simp [select_job, hs, Except.map]
      rw [hsel, error_bind]
      intro h
      injection h with h'
      exact select_job_by_filename_ne_missing env jn (by rw [hs, h'])
    | ok j =>
      have hsel : select_job env (.fname jn) = .ok (.single j) := by
        simp [select_job, hs, Except.map]
      rw [hsel, ok_bind]
      simp [pure_eq_ok]

/-! ### Concrete resource tree for the witnesses (the `way4.doc` example
of the specification, §8) -/

def wAssets : List AssetEntry := [{ name := some "doc", query := "select 1" }]

def wSuiteResource : SuiteResource :=
  { name := "inner_name",
    expectations := [{ expectation_type := "expect_nonnull", kwargs := [("column", "id")] }] }

def wJobData : JobData :=
  { name := "j1", tags := some ["nightly", "finance"],
    runs := [{ data_assets := ["way4.doc"], suite := "s1" }] }

def wFile : JobFile :=
  { sub_folder := "finance", file_name := "daily_recon", content := some wJobData }

def wEnv : Env :=
  { data_assets := [("way4", wAssets)],
    suites := [("s1", wSuiteResource)],
    jobFiles := [wFile] }

def wSuite : Suite :=
  { name := "inner_name",
    expectations := [{ expectation_type := "expect_nonnull", kwargs := [("column", "id")] }] }

def wAsset : DataAsset := { name := "way4.doc", query := "select 1" }

def wJob : Job :=
  { name := "j1", runs := [{ data_assets := [wAsset], suite := wSuite }],
    tags := some ["nightly", "finance"] }

def wJobDataUntagged : JobData := { name := "j2", tags := none, runs := [] }

def wFileUntagged : JobFile :=
  { sub_folder := "ops", file_name := "untagged", content := some wJobDataUntagged }

def wJobUntagged : Job := { name := "j2", runs := [], tags := none }

def wEnvU : Env := { wEnv with jobFiles := [wFile, wFileUntagged] }

/-! ### Witnesses -/

/-- Witness for C1: `resolve_asset("way4.doc")` on the example tree. -/
theorem select_asset_roundtrip_witness :
    select_asset wEnv "way4.doc" = .ok { name := "way4.doc", query := "select 1" } := by
  obtain ⟨-, entry, hfind, -, hsel⟩ :=
    select_asset_roundtrip wEnv "way4.doc" "way4" "doc" wAssets rfl rfl
      ⟨{ name := some "doc", query := "select 1" }, by simp [wAssets], rfl⟩
  have hentry : entry = { name := some "doc", query := "select 1" } := by
    have hv : findAsset wAssets "doc" = some { name := some "doc", query := "select 1" } := rfl
    rw [hv] at hfind
    exact (Option.some.inj hfind).symm
  rw [hsel, hentry]

/-- Witness for C2: `resolve_by_tags(["nightly"])` keeps the one matching
job. -/
theorem select_jobs_by_tags_spec_witness :
    select_jobs_by_tags wEnv ["nightly"] = .ok [wJob] := by
  have h := select_jobs_by_tags_spec wEnv ["nightly"] [wJob] (by simp) rfl
    (by intro j hj; simp only [List.mem_singleton] at hj; subst hj; simp [wJob])
  rw [h]
  rfl

/-- Witness for C3: one descriptor for the one asset of the one run, and
creation of the missing asset handle from the query. -/
theorem build_validations_spec_witness :
    (build_validations ⟨[]⟩ ⟨[]⟩ (.many [wJob])).2.2.map descriptorKey
        = [("way4.doc", "inner_name")] ∧
    processAssets wSuite ⟨[]⟩ ⟨[]⟩ [wAsset]
      = (⟨[("inner_name", wSuite.expectations)]⟩,
         ⟨[{ name := "way4.doc", query := "select 1" }]⟩,
         [{ batch_request := { data_asset := { name := "way4.doc", query := "select 1" } },
            expectation_suite_name := "inner_name" }]) := by
  have h := build_validations_spec ⟨[]⟩ ⟨[]⟩ [wJob]
  constructor
  · rw [h.2.1]
    rfl
  · rw [h.2.2.2 wSuite wAsset rfl]
    rfl

/-- Witness for C4: the returned suite is named by the resource's inner
`name` field (`inner_name`), not by the selector (`s1`). -/
theorem select_suite_spec_witness :
    select_suite wEnv "s1" = .ok wSuite := by
  have h := select_suite_spec wEnv "s1" wSuiteResource rfl
  rw [h]
  rfl

/-- Witness for C5: `resolve_asset("badname")` (no dot). -/
theorem malformed_name_errors_witness :
    select_asset wEnv "badname" = .error .malformedName ∧
    select_job_by_filename wEnv "badname" = .error .malformedName :=
  malformed_name_errors wEnv "badname" (by decide)

/-- Witness for C6: the empty tag list returns every assembled job. -/
theorem select_jobs_by_tags_empty_witness :
    select_jobs_by_tags wEnv [] = .ok [wJob] ∧
    ([wJob] : List Job).length = wEnv.jobFiles.length :=
  select_jobs_by_tags_empty wEnv [wJob] rfl (by simp [wEnv])

/-- Witness for C7: no `--job_name`, and an empty (falsy) `--job_tags`. -/
theorem missing_selector_fails_first_witness :
    main_run wEnv ⟨[]⟩ ⟨[]⟩ { job_name := none, job_tags := some "", webhook := none }
      = .error .missingSelector :=
  missing_selector_fails_first wEnv ⟨[]⟩ ⟨[]⟩
    { job_name := none, job_tags := some "", webhook := none } rfl rfl

/-- Witness for C8: `resolve_by_name("finance.nope")` with no such file. -/
theorem select_job_by_filename_spec_witness :
    select_job_by_filename wEnv "finance.nope" = .error .resourceNotFound :=
  (select_job_by_filename_spec wEnv "finance.nope" "finance" "nope" rfl).1 rfl

/-- Witness for C9: one untagged job file makes the whole tag selection
fail even though both files assemble. -/
theorem untagged_job_fails_tag_selection_witness :
    select_jobs_by_tags wEnvU ["nightly"] = .error .typeError := by
  apply untagged_job_fails_tag_selection wEnvU ["nightly"] (by simp)
  · intro f hf
    simp only [wEnvU, wEnv, List.mem_cons, List.mem_singleton, List.not_mem_nil,
      or_false] at hf
    rcases hf with h | h <;> subst h
    · exact ⟨wJobData, wJob, rfl, rfl⟩
    · exact ⟨wJobDataUntagged, wJobUntagged, rfl, rfl⟩
  · exact ⟨wFileUntagged, by simp [wEnvU, wEnv], wJobDataUntagged, wJobUntagged,
      rfl, rfl, rfl⟩

/-- Witness for C10: both selectors supplied — same outcome as the
name-only invocation. -/
theorem both_selectors_name_precedence_witness :
    main_run wEnv ⟨[]⟩ ⟨[]⟩
        { job_name := some "finance.daily_recon", job_tags := some "nightly", webhook := none }
      = main_run wEnv ⟨[]⟩ ⟨[]⟩
        { job_name := some "finance.daily_recon", job_tags := none, webhook := none } ∧
    main_run wEnv ⟨[]⟩ ⟨[]⟩
        { job_name := some "finance.daily_recon", job_tags := some "nightly", webhook := none }
      ≠ .error .missingSelector :=
  both_selectors_name_precedence wEnv ⟨[]⟩ ⟨[]⟩ "finance.daily_recon" "nightly" none
    (by simp)

end DataQuality
